import Mathlib

/-!
Verification of the sandbox session core of `deepagent-coder`
(`src/agent/sandbox.py`, configuration in `src/agent/settings.py`).

The Python source is shallowly embedded: pure data flow becomes Lean
functions, the external Daytona provider becomes explicit function
parameters (its contract is stated as hypotheses where a claim needs it),
and the `create_daytona_sandbox` async context manager becomes a trace
semantics driven by an environment of poll/seed/teardown outcomes.
-/

namespace Sandbox

/-- Byte strings are modelled as lists of byte values. -/
abbrev Bytes := List Nat

/-! ## Data model (deepagents protocol response types) -/

/-- `ExecuteResponse` from the deepagents backend protocol:
combined output, exit code and truncation flag. -/
structure ExecuteResponse where
  output : String
  exit_code : Int
  truncated : Bool
deriving DecidableEq, Repr

/-- `FileDownloadResponse`: one result per requested download path. -/
structure FileDownloadResponse where
  path : String
  content : Option Bytes
  error : Option String
deriving DecidableEq, Repr

/-- `FileUploadResponse`: one result per uploaded file. -/
structure FileUploadResponse where
  path : String
  error : Option String
deriving DecidableEq, Repr

/-! ## External Daytona provider types (interface boundary) -/

/-- Result of `sandbox.process.exec`: Daytona combines stdout/stderr into
`result` and reports the process exit code. -/
structure DaytonaExecResult where
  result : String
  exit_code : Int
deriving DecidableEq, Repr

/-- `daytona.FileDownloadRequest`: a source path to download. -/
structure FileDownloadRequest where
  source : String
deriving DecidableEq, Repr

/-- Daytona's per-item download response: echoes the request `source`,
carries the content in `result` and a provider error string. -/
structure DaytonaDownloadResponse where
  source : String
  result : Option Bytes
  error : Option String
deriving DecidableEq, Repr

/-- `daytona.FileUpload`: content plus destination path. -/
structure FileUpload where
  source : Bytes
  destination : String
deriving DecidableEq, Repr

/-- Daytona's per-item upload acknowledgement (the Python code ignores it;
it is kept in the model to express that the result is independent of it). -/
structure DaytonaUploadAck where
  error : Option String
deriving DecidableEq, Repr

/-! ## DaytonaBackend methods

Each method is parameterized by the provider operation it calls
(`self._sandbox.process.exec`, `self._sandbox.fs.download_files`,
`self._sandbox.fs.upload_files`), so that a theorem can quantify over
provider behavior or constrain it by the provider's stated contract. -/

/-- `DaytonaBackend.execute`: runs the command through the provider and
wraps the result, with `truncated` hard-coded to `false`. The scheduling
onto the captured event loop is modelled separately (`execute_bridge`). -/
def DaytonaBackend.execute (procExec : String → DaytonaExecResult)
    (command : String) : ExecuteResponse :=
  let result := procExec command
  { output := result.result
    exit_code := result.exit_code
    truncated := false }

/-- `DaytonaBackend.download_files`: builds one `FileDownloadRequest` per
input path, calls the provider batch API, and maps each provider response
to a `FileDownloadResponse` with `path := resp.source`, `content :=
resp.result` and `error := none` (error mapping is an unimplemented TODO
in the source). -/
def DaytonaBackend.download_files
    (fsDownload : List FileDownloadRequest → List DaytonaDownloadResponse)
    (paths : List String) : List FileDownloadResponse :=
  let download_requests := paths.map (fun path => ({ source := path } : FileDownloadRequest))
  let daytona_responses := fsDownload download_requests
  daytona_responses.map (fun resp =>
    ({ path := resp.source, content := resp.result, error := none } : FileDownloadResponse))

/-- `DaytonaBackend.upload_files`: builds one `FileUpload` per input pair,
calls the provider batch API, discards its acknowledgements, and returns
one `FileUploadResponse` per input with `error := none` unconditionally
(error mapping is an unimplemented TODO in the source). -/
def DaytonaBackend.upload_files
    (fsUpload : List FileUpload → List DaytonaUploadAck)
    (files : List (String × Bytes)) : List FileUploadResponse :=
  let upload_requests := files.map
    (fun pc => ({ source := pc.2, destination := pc.1 } : FileUpload))
  let _acks := fsUpload upload_requests
  files.map (fun pc => ({ path := pc.1, error := none } : FileUploadResponse))

/-- The provider contract for `download_batch` stated in the spec's
external-interface section: order-preserving, one response per request,
each response echoing its request's source path. -/
def DownloadContract
    (fsDownload : List FileDownloadRequest → List DaytonaDownloadResponse) : Prop :=
  ∀ reqs : List FileDownloadRequest,
    (fsDownload reqs).length = reqs.length ∧
    ∀ i : Nat, ((fsDownload reqs)[i]?).map (fun r => r.source)
      = (reqs[i]?).map (fun r => r.source)

end Sandbox

namespace Sandbox

/-! ## Claim theorems: Batch File Transporter and Execution Bridge -/

/-- C4: for every provider behavior and every command string, `execute`
returns `truncated = false` and carries the provider's exit status in
`exit_code`; the function is total, so a non-zero exit code is returned,
never raised. -/
theorem execute_truncated_false_and_exit_code
    (procExec : String → DaytonaExecResult) (command : String) :
    (DaytonaBackend.execute procExec command).truncated = false ∧
    (DaytonaBackend.execute procExec command).exit_code = (procExec command).exit_code ∧
    (DaytonaBackend.execute procExec command).output = (procExec command).result := by
  refine ⟨rfl, rfl, rfl⟩

/-- C3: assuming the provider's order-preserving batch-download contract,
`download_files` returns exactly one result per input path, and the i-th
result's `path` equals the i-th input path. -/
theorem download_files_length_and_order
    (fsDownload : List FileDownloadRequest → List DaytonaDownloadResponse)
    (hc : DownloadContract fsDownload) (paths : List String) :
    (DaytonaBackend.download_files fsDownload paths).length = paths.length ∧
    ∀ i : Nat, ((DaytonaBackend.download_files fsDownload paths)[i]?).map
        (fun r => r.path) = paths[i]? := by
  obtain ⟨hlen, hsrc⟩ := hc (paths.map (fun path => ({ source := path } : FileDownloadRequest)))
  constructor
  · simp [DaytonaBackend.download_files, hlen]
  · intro i
    have h := hsrc i
    simp only [DaytonaBackend.download_files, List.getElem?_map]
    simp only [List.getElem?_map] at h
    cases hx : (fsDownload (paths.map (fun path => ({ source := path } : FileDownloadRequest))))[i]? with
    | none =>
        rw [hx] at h
        cases hp : paths[i]? with
        | none => simp
        | some p => rw [hp] at h; simp at h
    | some resp =>
        rw [hx] at h
        cases hp : paths[i]? with
        | none => rw [hp] at h; simp at h
        | some p =>
            rw [hp] at h
            simp at h
            simp [h]

/-- A concrete contract-conforming provider used to witness C3. -/
def echoDownloadProvider (reqs : List FileDownloadRequest) : List DaytonaDownloadResponse :=
  reqs.map (fun r => ({ source := r.source, result := some [], error := none } : DaytonaDownloadResponse))

/-- Witness for C3 at a concrete provider and path list. -/
theorem download_files_length_and_order_witness :
    (DaytonaBackend.download_files echoDownloadProvider ["a.txt", "b.txt"]).length = 2 ∧
    ∀ i : Nat, ((DaytonaBackend.download_files echoDownloadProvider ["a.txt", "b.txt"])[i]?).map
        (fun r => r.path) = (["a.txt", "b.txt"] : List String)[i]? := by
  have hc : DownloadContract echoDownloadProvider := by
    intro reqs
    constructor
    · simp [echoDownloadProvider]
    · intro i
      simp only [echoDownloadProvider, List.getElem?_map]
      cases reqs[i]? <;> rfl
  exact download_files_length_and_order echoDownloadProvider hc ["a.txt", "b.txt"]

/-- C10: `upload_files` builds its result purely from its input list: one
response per input entry, in input order, with `path` equal to the input
path and `error` always `none`, independent of the provider's per-item
acknowledgements. -/
theorem upload_files_pure_of_input
    (fsUpload : List FileUpload → List DaytonaUploadAck)
    (files : List (String × Bytes)) :
    (DaytonaBackend.upload_files fsUpload files).length = files.length ∧
    (DaytonaBackend.upload_files fsUpload files).map (fun r => r.path)
      = files.map (fun pc => pc.1) ∧
    (DaytonaBackend.upload_files fsUpload files).map (fun r => r.error)
      = files.map (fun _ => (none : Option String)) ∧
    ∀ fsUpload2 : List FileUpload → List DaytonaUploadAck,
      DaytonaBackend.upload_files fsUpload files
        = DaytonaBackend.upload_files fsUpload2 files := by
  refine ⟨by simp [DaytonaBackend.upload_files], ?_, ?_, ?_⟩
  · simp [DaytonaBackend.upload_files]
  · simp only [DaytonaBackend.upload_files, List.map_map]
    rfl
  · intro fsUpload2
    rfl

/-- A provider that rejects uploads whose destination path is empty,
acknowledging them with a per-item error. -/
def fsUploadRejectingEmptyPath (reqs : List FileUpload) : List DaytonaUploadAck :=
  reqs.map (fun r =>
    ({ error := if r.destination = "" then some "malformed path" else none } : DaytonaUploadAck))

/-- A batch of two upload requests in which item 1 is malformed (empty
destination path). -/
def malformedBatch : List (String × Bytes) := [("ok.txt", [104, 105]), ("", [0])]

/-- C6 counterexample: in a batch of 2 where item 1 is malformed and the
provider acknowledges it with a per-item error, `upload_files` still
returns `error = none` for item 1 — the malformed item's result does not
carry an error, contrary to the claim. -/
theorem upload_files_malformed_item_error_absent :
    ((fsUploadRejectingEmptyPath (malformedBatch.map
        (fun pc => ({ source := pc.2, destination := pc.1 } : FileUpload))))[1]?).map
      (fun ack => ack.error.isSome) = some true ∧
    ¬ (((DaytonaBackend.upload_files fsUploadRejectingEmptyPath malformedBatch)[1]?).map
        (fun r => r.error.isSome) = some true) := by
  refine ⟨by decide, by decide⟩

/-- C6 amended: `upload_files` on a batch of k requests always returns
exactly k results, but no result ever carries an error — even when the
provider reports a per-item failure, every result's `error` is `none`;
the batch is never aborted and no result is omitted. -/
theorem upload_files_batch_never_reports_item_errors
    (fsUpload : List FileUpload → List DaytonaUploadAck)
    (files : List (String × Bytes)) :
    (DaytonaBackend.upload_files fsUpload files).length = files.length ∧
    (DaytonaBackend.upload_files fsUpload files).map (fun r => r.error)
      = List.replicate files.length (none : Option String) := by
  constructor
  · simp [DaytonaBackend.upload_files]
  · simp only [DaytonaBackend.upload_files, List.map_map]
    exact List.map_const' files none

/-! ## Settings and the seeding step (`upload_skills`) -/

/-- Embedding of `Settings` in `src/agent/settings.py` (the two API-key
fields play no role in the claims and are omitted). -/
structure Settings where
  daytona_base_path : String
  skills_base_path : String
  max_skill_file_size : Nat
deriving DecidableEq, Repr

/-- The default `settings` instance from `src/agent/settings.py`. -/
def settings : Settings :=
  { daytona_base_path := "/home/daytona"
    skills_base_path := "/home/daytona/skills"
    max_skill_file_size := 10 * 1024 * 1024 }

/-- A file found under the local skills directory: its path relative to
the skills directory, and its content. -/
structure SkillFile where
  rel_path : String
  content : Bytes
deriving DecidableEq, Repr

/-- Embedding of the inner `get_files` of `upload_skills`: walks every
regular file under the skills directory (given here as an explicit
listing) and builds one `FileUpload` per file with destination
`/home/daytona/skills/<rel_path>`. The source applies no per-file size
filter here. -/
def upload_skills_get_files (skillsDir : List SkillFile) : List FileUpload :=
  skillsDir.map (fun f =>
    ({ source := f.content
       destination := "/home/daytona/skills/" ++ f.rel_path } : FileUpload))

/-- A skill file one byte larger than the configured maximum. -/
def oversizedSkillFile : SkillFile :=
  { rel_path := "big.bin", content := List.replicate (settings.max_skill_file_size + 1) 0 }

/-- C5 counterexample: a seed file whose size exceeds
`settings.max_skill_file_size` is not skipped by the seeding step — it
appears in the upload batch, contrary to the claim. -/
theorem upload_skills_uploads_oversized_file :
    oversizedSkillFile.content.length > settings.max_skill_file_size ∧
    (upload_skills_get_files [oversizedSkillFile]).map (fun u => u.destination)
      = ["/home/daytona/skills/big.bin"] ∧
    (upload_skills_get_files [oversizedSkillFile]).map (fun u => u.source.length)
      = [settings.max_skill_file_size + 1] := by
  refine ⟨?_, rfl, ?_⟩
  · simp [oversizedSkillFile]
  · simp [upload_skills_get_files, oversizedSkillFile]

/-- C5 amended: the seeding step applies no per-file size check: every
file under the skills directory is included in the upload batch, with its
full content and its destination under the skills base path, regardless
of its size. -/
theorem upload_skills_seeds_every_file
    (skillsDir : List SkillFile) :
    (upload_skills_get_files skillsDir).length = skillsDir.length ∧
    (upload_skills_get_files skillsDir).map (fun u => u.source)
      = skillsDir.map (fun f => f.content) ∧
    (upload_skills_get_files skillsDir).map (fun u => u.destination)
      = skillsDir.map (fun f => "/home/daytona/skills/" ++ f.rel_path) := by
  refine ⟨?_, ?_, ?_⟩
  · simp [upload_skills_get_files]
  · simp only [upload_skills_get_files, List.map_map]
    rfl
  · simp only [upload_skills_get_files, List.map_map]
    rfl

/-! ## Session lifecycle model (`create_daytona_sandbox`)

The async context manager is embedded as a trace semantics. An
environment fixes what the remote provider and the consuming scope do:
the outcome of each readiness poll attempt, the outcome of the seeding
step on each attempt, how the consuming scope's body exits, and whether
the final `sandbox.delete()` succeeds. Running the session produces the
ordered list of provider-visible events, the session outcome, and the
backend handed to the caller (if any). -/

/-- Outcome of one `sandbox.process.exec("echo ready", timeout=5)` poll
attempt: the call raises, or completes with an exit code. -/
inductive PollOutcome
  | exc
  | exitCode (c : Int)
deriving DecidableEq, Repr

/-- Outcome of one `upload_skills` invocation: success; an upload failure
(raised by `fs.upload_files`, caught and printed inside `upload_skills`);
or an assembly failure (raised while reading local files, which escapes
`upload_skills` because `get_files` runs outside its try block). -/
inductive SeedOutcome
  | ok
  | uploadFail
  | assembleFail
deriving DecidableEq, Repr

/-- How the consuming scope's body exits: normal return, exception, or
cancellation. -/
inductive BodyExit
  | normal
  | raised
  | cancelled
deriving DecidableEq, Repr

/-- Final outcome of the session as observed by the caller.
`provisioningTimeout` models the
`RuntimeError("Daytona sandbox failed to start within 180 seconds")`
raised on poll-budget exhaustion (the spec's `ProvisioningTimeout`). -/
inductive Outcome
  | success
  | provisioningTimeout
  | bodyError
  | bodyCancelled
deriving DecidableEq, Repr

/-- Provider-visible and lifecycle events, in program order. -/
inductive Event
  | createEv
  | pollEv (attempt : Nat) (o : PollOutcome)
  | seedEv (o : SeedOutcome)
  | yieldEv
  | deleteEv (ok : Bool)
  | cleanupLogEv
deriving DecidableEq, Repr

/-- Environment driving one session run. -/
structure Env where
  poll : Nat → PollOutcome
  seed : Nat → SeedOutcome
  body : BodyExit
  deleteOk : Bool
  runningLoop : Nat
  sandboxId : String

/-- The `DaytonaBackend` object: it stores the sandbox identifier and the
event loop captured at sandbox-creation time (`self._loop`). -/
structure DaytonaBackend where
  sandbox_id : String
  loop : Nat
deriving DecidableEq, Repr

/-- The `id` property of `DaytonaBackend`. -/
def DaytonaBackend.id (self : DaytonaBackend) : String :=
  self.sandbox_id

/-- Which concurrency primitive a synchronous-over-asynchronous call
uses: scheduling onto a given existing event loop and blocking on the
returned future (`asyncio.run_coroutine_threadsafe` + `future.result()`),
or spinning up a fresh event loop for the call. -/
inductive AsyncBridge
  | run_coroutine_threadsafe (loop : Nat)
  | new_event_loop_per_call
deriving DecidableEq, Repr

/-- Embedding of the scheduling performed by `DaytonaBackend.execute`:
`asyncio.run_coroutine_threadsafe(execute(), self._loop)` targets the
stored loop; no fresh loop is created. -/
def DaytonaBackend.execute_bridge (self : DaytonaBackend) : AsyncBridge :=
  AsyncBridge.run_coroutine_threadsafe self.loop

/-- The readiness poll loop of `create_daytona_sandbox`: up to `fuel`
attempts starting at attempt index `i`. Returns the events produced and
`some i` when the loop exited via `break` on attempt `i` (readiness
reached and seeding did not raise), `none` when the budget was exhausted.
Per attempt: an exception or a non-zero exit retries; a zero exit runs
`upload_skills`, whose assembly failure is caught by the attempt's
`except` and retries, while success or a swallowed upload failure is
followed by `break`. -/
def runPoll (env : Env) : Nat → Nat → List Event × Option Nat
  | 0, _ => ([], none)
  | fuel + 1, i =>
    match env.poll i with
    | PollOutcome.exc =>
        let next := runPoll env fuel (i + 1)
        (Event.pollEv i PollOutcome.exc :: next.1, next.2)
    | PollOutcome.exitCode c =>
        if c = 0 then
          match env.seed i with
          | SeedOutcome.assembleFail =>
              let next := runPoll env fuel (i + 1)
              (Event.pollEv i (PollOutcome.exitCode c)
                :: Event.seedEv SeedOutcome.assembleFail :: next.1, next.2)
          | s =>
              ([Event.pollEv i (PollOutcome.exitCode c), Event.seedEv s], some i)
        else
          let next := runPoll env fuel (i + 1)
          (Event.pollEv i (PollOutcome.exitCode c) :: next.1, next.2)

/-- Outcome the caller observes for each way the body exits; cleanup
errors never alter it. -/
def bodyOutcome : BodyExit → Outcome
  | BodyExit.normal => Outcome.success
  | BodyExit.raised => Outcome.bodyError
  | BodyExit.cancelled => Outcome.bodyCancelled

/-- Events of the `finally` block guarding the yield: one deletion call;
on failure the exception is caught and only logged. -/
def teardownEvents (deleteOk : Bool) : List Event :=
  if deleteOk then [Event.deleteEv true]
  else [Event.deleteEv false, Event.cleanupLogEv]

/-- Result of one full session run. -/
structure RunResult where
  trace : List Event
  outcome : Outcome
  backend : Option DaytonaBackend

/-- Embedding of `create_daytona_sandbox`: create, poll (budget 90), and
either tear down and raise the timeout (delete failure superseded by the
raise in the `finally`), or capture the running loop, yield the backend,
and on any body exit run the teardown whose failure is only logged. -/
def runSession (env : Env) : RunResult :=
  let p := runPoll env 90 0
  match p.2 with
  | none =>
      { trace := Event.createEv :: p.1 ++ [Event.deleteEv env.deleteOk]
        outcome := Outcome.provisioningTimeout
        backend := none }
  | some _ =>
      { trace := Event.createEv :: p.1 ++ [Event.yieldEv] ++ teardownEvents env.deleteOk
        outcome := bodyOutcome env.body
        backend := some { sandbox_id := env.sandboxId, loop := env.runningLoop } }

/-- The session reached the Ready state (the poll loop exited via
`break`, so the backend was yielded). -/
def ReachedReady (env : Env) : Prop :=
  (runPoll env 90 0).2.isSome = true

/-- Event classifiers. -/
def isPollEv : Event → Bool
  | Event.pollEv _ _ => true
  | _ => false

/-- A poll attempt that completed with exit status 0. -/
def isReadyPollEv : Event → Bool
  | Event.pollEv _ (PollOutcome.exitCode c) => c == 0
  | _ => false

/-- A seeding event. -/
def isSeedEv : Event → Bool
  | Event.seedEv _ => true
  | _ => false

/-- A deletion call. -/
def isDeleteEv : Event → Bool
  | Event.deleteEv _ => true
  | _ => false

/-- The yield of the ready backend. -/
def isYieldEv : Event → Bool
  | Event.yieldEv => true
  | _ => false

/-! ## Helper lemmas -/

lemma takeWhile_append_of_all {α : Type} (p : α → Bool) (xs ys : List α)
    (h : xs.all p = true) : (xs ++ ys).takeWhile p = xs ++ ys.takeWhile p := by
  induction xs with
  | nil => simp
  | cons a l ih =>
      simp only [List.all_cons, Bool.and_eq_true] at h
      simp [List.takeWhile_cons, h.1, ih h.2]

lemma takeWhile_append_of_not_all {α : Type} (p : α → Bool) (xs ys : List α)
    (h : ∃ a ∈ xs, p a = false) : (xs ++ ys).takeWhile p = xs.takeWhile p := by
  induction xs with
  | nil =>
      obtain ⟨a, ha, _⟩ := h
      simp at ha
  | cons a l ih =>
      cases hpa : p a with
      | true =>
          obtain ⟨b, hb, hpb⟩ := h
          rcases List.mem_cons.mp hb with hba | hbl

          · rw [hba] at hpb
            rw [hpa] at hpb
            cases hpb
          · simp [List.takeWhile_cons, hpa, ih ⟨b, hbl, hpb⟩]
      | false =>
          simp [List.takeWhile_cons, hpa]

lemma poll_or_seed_not_delete (e : Event)
    (h : isPollEv e = true ∨ isSeedEv e = true) : isDeleteEv e = false := by
  cases e <;> first
    | rfl
    | (exfalso; simp [isPollEv, isSeedEv] at h)

lemma poll_or_seed_not_yield (e : Event)
    (h : isPollEv e = true ∨ isSeedEv e = true) : isYieldEv e = false := by
  cases e <;> first
    | rfl
    | (exfalso; simp [isPollEv, isSeedEv] at h)

lemma runPoll_events (env : Env) :
    ∀ fuel i e, e ∈ (runPoll env fuel i).1 → isPollEv e = true ∨ isSeedEv e = true := by
  intro fuel
  induction fuel with
  | zero =>
      intro i e he
      simp [runPoll] at he
  | succ n ih =>
      intro i e he
      cases hp : env.poll i with
      | exc =>
          simp only [runPoll, hp] at he
          rcases List.mem_cons.mp he with rfl | htail
          · exact Or.inl rfl
          · exact ih (i + 1) e htail
      | exitCode c =>
          by_cases hc : c = 0
          · subst hc
            cases hs : env.seed i with
            | assembleFail =>
                simp only [runPoll, hp, hs, reduceIte] at he
                rcases List.mem_cons.mp he with rfl | htail
                · exact Or.inl rfl
                rcases List.mem_cons.mp htail with rfl | htail2
                · exact Or.inr rfl
                · exact ih (i + 1) e htail2
            | ok =>
                simp only [runPoll, hp, hs, reduceIte] at he
                rcases List.mem_cons.mp he with rfl | htail
                · exact Or.inl rfl
                rcases List.mem_cons.mp htail with rfl | htail2
                · exact Or.inr rfl
                · simp at htail2
            | uploadFail =>
                simp only [runPoll, hp, hs, reduceIte] at he
                rcases List.mem_cons.mp he with rfl | htail
                · exact Or.inl rfl
                rcases List.mem_cons.mp htail with rfl | htail2
                · exact Or.inr rfl
                · simp at htail2
          · simp only [runPoll, hp, if_neg hc] at he
            rcases List.mem_cons.mp he with rfl | htail
            · exact Or.inl rfl
            · exact ih (i + 1) e htail

lemma runPoll_countP_delete (env : Env) (fuel i : Nat) :
    ((runPoll env fuel i).1.countP isDeleteEv) = 0 := by
  refine List.countP_eq_zero.mpr ?_
  intro e he
  simp [poll_or_seed_not_delete e (runPoll_events env fuel i e he)]

lemma runPoll_all_not_yield (env : Env) (fuel i : Nat) :
    ((runPoll env fuel i).1.all (fun e => ! isYieldEv e)) = true := by
  rw [List.all_eq_true]
  intro e he
  simp [poll_or_seed_not_yield e (runPoll_events env fuel i e he)]

lemma teardown_countP_delete (d : Bool) :
    ((teardownEvents d).countP isDeleteEv) = 1 := by
  cases d <;> rfl

lemma runPoll_some_shape (env : Env) :
    ∀ fuel start i, (runPoll env fuel start).2 = some i →
      ∃ pre s, s ≠ SeedOutcome.assembleFail ∧
        (runPoll env fuel start).1
          = pre ++ [Event.pollEv i (PollOutcome.exitCode 0), Event.seedEv s] := by
  intro fuel
  induction fuel with
  | zero =>
      intro start i h
      simp [runPoll] at h
  | succ n ih =>
      intro start i h
      cases hp : env.poll start with
      | exc =>
          simp only [runPoll, hp] at h ⊢
          obtain ⟨pre, s, hs, htr⟩ := ih (start + 1) i h
          exact ⟨Event.pollEv start PollOutcome.exc :: pre, s, hs, by simp [htr]⟩
      | exitCode c =>
          by_cases hc : c = 0
          · subst hc
            cases hs : env.seed start with
            | assembleFail =>
                simp only [runPoll, hp, hs, reduceIte] at h ⊢
                obtain ⟨pre, s, hsne, htr⟩ := ih (start + 1) i h
                exact ⟨Event.pollEv start (PollOutcome.exitCode 0)
                  :: Event.seedEv SeedOutcome.assembleFail :: pre, s, hsne, by simp [htr]⟩
            | ok =>
                simp only [runPoll, hp, hs, reduceIte] at h ⊢
                cases h
                exact ⟨[], SeedOutcome.ok, by simp, rfl⟩
            | uploadFail =>
                simp only [runPoll, hp, hs, reduceIte] at h ⊢
                cases h
                exact ⟨[], SeedOutcome.uploadFail, by simp, rfl⟩
          · simp only [runPoll, hp, if_neg hc] at h ⊢
            obtain ⟨pre, s, hs, htr⟩ := ih (start + 1) i h
            exact ⟨Event.pollEv start (PollOutcome.exitCode c) :: pre, s, hs, by simp [htr]⟩

lemma runPoll_none_of_never_ready (env : Env) :
    ∀ fuel start,
      (∀ j, start ≤ j → j < start + fuel → env.poll j ≠ PollOutcome.exitCode 0) →
      (runPoll env fuel start).2 = none ∧
      ((runPoll env fuel start).1.countP isPollEv) = fuel := by
  intro fuel
  induction fuel with
  | zero =>
      intro start _
      exact ⟨rfl, rfl⟩
  | succ n ih =>
      intro start h
      have hstart : env.poll start ≠ PollOutcome.exitCode 0 :=
        h start le_rfl (by omega)
      have hnext := ih (start + 1) (fun j hj1 hj2 => h j (by omega) (by omega))
      cases hp : env.poll start with
      | exc =>
          simp only [runPoll, hp]
          refine ⟨hnext.1, ?_⟩
          simp [List.countP_cons, isPollEv, hnext.2]
      | exitCode c =>
          have hc : ¬ c = 0 := by
            intro hc0
            exact hstart (by rw [hp, hc0])
          simp only [runPoll, hp, if_neg hc]
          refine ⟨hnext.1, ?_⟩
          simp [List.countP_cons, isPollEv, hnext.2]

lemma runPoll_some_of_ready (env : Env)
    (hseed : ∀ j, env.seed j ≠ SeedOutcome.assembleFail) :
    ∀ fuel start i, start ≤ i → i < start + fuel →
      env.poll i = PollOutcome.exitCode 0 →
      (runPoll env fuel start).2.isSome = true := by
  intro fuel
  induction fuel with
  | zero =>
      intro start i h1 h2 _
      omega
  | succ n ih =>
      intro start i h1 h2 h3
      cases hp : env.poll start with
      | exc =>
          have hne : i ≠ start := by
            intro he
            rw [he, hp] at h3
            cases h3
          simp only [runPoll, hp]
          exact ih (start + 1) i (by omega) (by omega) h3
      | exitCode c =>
          by_cases hc : c = 0
          · subst hc
            cases hs : env.seed start with
            | assembleFail => exact absurd hs (hseed start)
            | ok => simp [runPoll, hp, hs]
            | uploadFail => simp [runPoll, hp, hs]
          · have hne : i ≠ start := by
              intro he
              rw [he, hp] at h3
              exact hc (PollOutcome.exitCode.inj h3)
            simp only [runPoll, hp, if_neg hc]
            exact ih (start + 1) i (by omega) (by omega) h3

lemma runSession_ready_shape (env : Env) (h : ReachedReady env) :
    ∃ i, (runPoll env 90 0).2 = some i ∧
      (runSession env).trace
        = Event.createEv :: (runPoll env 90 0).1
            ++ [Event.yieldEv] ++ teardownEvents env.deleteOk ∧
      (runSession env).outcome = bodyOutcome env.body ∧
      (runSession env).backend
        = some { sandbox_id := env.sandboxId, loop := env.runningLoop } := by
  unfold ReachedReady at h
  obtain ⟨i, hi⟩ := Option.isSome_iff_exists.mp h
  refine ⟨i, hi, ?_, ?_, ?_⟩ <;> simp [runSession, hi]

lemma isReadyPollEv_exc (a : Nat) :
    isReadyPollEv (Event.pollEv a PollOutcome.exc) = false := rfl

lemma isReadyPollEv_exit (a : Nat) (c : Int) :
    isReadyPollEv (Event.pollEv a (PollOutcome.exitCode c)) = (c == 0) := rfl

lemma isSeedEv_pollEv (a : Nat) (o : PollOutcome) :
    isSeedEv (Event.pollEv a o) = false := rfl

lemma isSeedEv_seed (o : SeedOutcome) : isSeedEv (Event.seedEv o) = true := rfl

lemma isReadyPollEv_create : isReadyPollEv Event.createEv = false := rfl

lemma isSeedEv_create : isSeedEv Event.createEv = false := rfl

lemma isYieldEv_create : isYieldEv Event.createEv = false := rfl

lemma isYieldEv_yield : isYieldEv Event.yieldEv = true := rfl

lemma runPoll_takeWhile_no_seed (env : Env) :
    ∀ fuel start e,
      e ∈ ((runPoll env fuel start).1.takeWhile (fun x => ! isReadyPollEv x)) →
      isSeedEv e = false := by
  intro fuel
  induction fuel with
  | zero =>
      intro start e he
      simp [runPoll] at he
  | succ n ih =>
      intro start e he
      cases hp : env.poll start with
      | exc =>
          simp only [runPoll, hp] at he
          simp [List.takeWhile_cons, isReadyPollEv_exc] at he
          rcases he with rfl | he
          · rfl
          · exact ih (start + 1) e he
      | exitCode c =>
          by_cases hc : c = 0
          · subst hc
            cases hs : env.seed start with
            | assembleFail =>
                simp only [runPoll, hp, hs, reduceIte] at he
                simp [List.takeWhile_cons, isReadyPollEv_exit] at he
            | ok =>
                simp only [runPoll, hp, hs, reduceIte] at he
                simp [List.takeWhile_cons, isReadyPollEv_exit] at he
            | uploadFail =>
                simp only [runPoll, hp, hs, reduceIte] at he
                simp [List.takeWhile_cons, isReadyPollEv_exit] at he
          · simp only [runPoll, hp, if_neg hc] at he
            have hr : isReadyPollEv (Event.pollEv start (PollOutcome.exitCode c)) = false := by
              rw [isReadyPollEv_exit]
              exact beq_eq_false_iff_ne.mpr hc
            simp [List.takeWhile_cons, hr] at he
            rcases he with rfl | he
            · rfl
            · exact ih (start + 1) e he

/-! ## Witness environments -/

/-- Run where the first poll attempt is ready, seeding succeeds, the body
returns normally, and the final deletion fails. -/
def envReady : Env :=
  { poll := fun _ => PollOutcome.exitCode 0
    seed := fun _ => SeedOutcome.ok
    body := BodyExit.normal
    deleteOk := false
    runningLoop := 7
    sandboxId := "sb-ready" }

/-- Run where every poll attempt raises, so readiness is never reached. -/
def envNeverReady : Env :=
  { poll := fun _ => PollOutcome.exc
    seed := fun _ => SeedOutcome.ok
    body := BodyExit.normal
    deleteOk := false
    runningLoop := 0
    sandboxId := "sb-timeout" }

/-- Run where every poll attempt is ready but assembling the seed files
always raises (the failure escaping `upload_skills`). -/
def envAssembleFail : Env :=
  { poll := fun _ => PollOutcome.exitCode 0
    seed := fun _ => SeedOutcome.assembleFail
    body := BodyExit.normal
    deleteOk := true
    runningLoop := 0
    sandboxId := "sb-seed" }

/-- Run where the first poll attempt is ready and the seed upload fails
(the failure swallowed inside `upload_skills`). -/
def envUploadFail : Env :=
  { poll := fun _ => PollOutcome.exitCode 0
    seed := fun _ => SeedOutcome.uploadFail
    body := BodyExit.normal
    deleteOk := true
    runningLoop := 3
    sandboxId := "sb-upload" }

/-! ## Claim theorems: Session Lifecycle Manager -/

/-- C1: on every exit of the consuming scope after the sandbox became
Ready — normal return, exception, or cancellation (all three values of
`env.body`) — the trace contains exactly one deletion call, and the
session outcome is determined by the body's exit alone: a deletion
failure (`env.deleteOk = false`) is logged but never raised, so it cannot
mask the caller's success or failure, and no second deletion is ever
issued for the handle. -/
theorem session_deletes_exactly_once_after_ready (env : Env) (h : ReachedReady env) :
    ((runSession env).trace.countP isDeleteEv) = 1 ∧
    (runSession env).outcome = bodyOutcome env.body := by
  obtain ⟨i, hi, htrace, houtcome, hbackend⟩ := runSession_ready_shape env h
  refine ⟨?_, houtcome⟩
  rw [htrace]
  simp [List.countP_cons, List.countP_append, runPoll_countP_delete,
    teardown_countP_delete, isDeleteEv]

/-- Witness for C1: a ready session whose body returns normally and whose
deletion fails still records exactly one deletion and reports success. -/
theorem session_deletes_exactly_once_after_ready_witness :
    ((runSession envReady).trace.countP isDeleteEv) = 1 ∧
    (runSession envReady).outcome = bodyOutcome envReady.body :=
  session_deletes_exactly_once_after_ready envReady (by unfold ReachedReady; decide)

/-- C2: if no readiness check ever completes with exit status 0, the run
records exactly 90 poll attempts and exactly one deletion attempt, and
the session fails with the provisioning timeout — independently of
whether that deletion attempt succeeds. -/
theorem provisioning_timeout_after_90_attempts (env : Env)
    (h : ∀ j, j < 90 → env.poll j ≠ PollOutcome.exitCode 0) :
    ((runSession env).trace.countP isPollEv) = 90 ∧
    ((runSession env).trace.countP isDeleteEv) = 1 ∧
    (runSession env).outcome = Outcome.provisioningTimeout := by
  have hnone := runPoll_none_of_never_ready env 90 0 (fun j _ hj2 => h j (by omega))
  refine ⟨?_, ?_, ?_⟩ <;>
    simp [runSession, hnone.1, List.countP_cons, List.countP_append,
      isPollEv, isDeleteEv, hnone.2, runPoll_countP_delete]

/-- Witness for C2: a run whose every poll attempt raises times out after
90 attempts with one deletion attempt, whose failure does not change the
outcome. -/
theorem provisioning_timeout_after_90_attempts_witness :
    ((runSession envNeverReady).trace.countP isPollEv) = 90 ∧
    ((runSession envNeverReady).trace.countP isDeleteEv) = 1 ∧
    (runSession envNeverReady).outcome = Outcome.provisioningTimeout :=
  provisioning_timeout_after_90_attempts envNeverReady
    (fun _ _ hcon => PollOutcome.noConfusion hcon)

set_option maxRecDepth 20000 in
/-- C7 counterexample: with every poll attempt ready but every seeding
attempt failing during assembly, the seeding failure is re-treated as a
failed poll attempt (it is raised into the attempt's `except` block), the
loop retries seeding 90 times, and session creation fails with the
provisioning timeout — refuting "a seeding failure never causes session
creation to fail". -/
theorem seeding_assembly_failure_fails_provisioning :
    (runSession envAssembleFail).outcome = Outcome.provisioningTimeout ∧
    ((runSession envAssembleFail).trace.countP isSeedEv) = 90 := by
  decide

/-- C7 amended: a failure of the seed-file upload (raised by the provider
upload call) is swallowed and logged inside `upload_skills`, so
provisioning still succeeds whenever some poll attempt is ready; only a
failure while assembling the local seed files escapes the seeding step
and can (if persistent) exhaust the poll budget. -/
theorem seeding_upload_failure_does_not_fail_provisioning (env : Env)
    (hseed : ∀ j, env.seed j ≠ SeedOutcome.assembleFail)
    (i : Nat) (hi : i < 90) (hready : env.poll i = PollOutcome.exitCode 0) :
    ReachedReady env ∧
    (runSession env).outcome = bodyOutcome env.body := by
  have hr : ReachedReady env :=
    runPoll_some_of_ready env hseed 90 0 i (by omega) (by omega) hready
  obtain ⟨k, hk, htrace, houtcome, hbackend⟩ := runSession_ready_shape env hr
  exact ⟨hr, houtcome⟩

/-- Witness for the amended C7: a run whose seed upload fails on the
first ready attempt still reaches Ready and succeeds. -/
theorem seeding_upload_failure_does_not_fail_provisioning_witness :
    ReachedReady envUploadFail ∧
    (runSession envUploadFail).outcome = bodyOutcome envUploadFail.body :=
  seeding_upload_failure_does_not_fail_provisioning envUploadFail
    (fun j hcon => SeedOutcome.noConfusion hcon) 0 (by decide) rfl

/-- C8: in every session that reaches Ready, no seeding event precedes
the first poll attempt that completed with exit status 0 (the trace up to
that poll contains no seeding event), and a seeding event occurs strictly
before the backend is yielded. -/
theorem seeding_between_first_ready_poll_and_yield (env : Env) (h : ReachedReady env) :
    (((runSession env).trace.takeWhile (fun x => ! isReadyPollEv x)).all
        (fun x => ! isSeedEv x)) = true ∧
    (((runSession env).trace.takeWhile (fun x => ! isYieldEv x)).any isSeedEv) = true ∧
    Event.yieldEv ∈ (runSession env).trace := by
  obtain ⟨i, hi, htrace, houtcome, hbackend⟩ := runSession_ready_shape env h
  obtain ⟨pre, s, hsne, htr⟩ := runPoll_some_shape env 90 0 i hi
  refine ⟨?_, ?_, ?_⟩
  · rw [htrace]
    simp only [List.cons_append, List.append_assoc]
    rw [List.takeWhile_cons]
    have hwit : ∃ a ∈ (runPoll env 90 0).1,
        ((fun x => ! isReadyPollEv x) a) = false := by
      refine ⟨Event.pollEv i (PollOutcome.exitCode 0), ?_, by simp [isReadyPollEv_exit]⟩
      rw [htr]
      simp
    rw [takeWhile_append_of_not_all _ _ _ hwit]
    have hall : (((runPoll env 90 0).1.takeWhile (fun x => ! isReadyPollEv x)).all
        (fun x => ! isSeedEv x)) = true := by
      rw [List.all_eq_true]
      intro x hx
      simp [runPoll_takeWhile_no_seed env 90 0 x hx]
    simp [isReadyPollEv_create, isSeedEv_create, hall]
  · rw [htrace]
    simp only [List.cons_append, List.nil_append, List.append_assoc]
    rw [List.takeWhile_cons]
    rw [takeWhile_append_of_all _ _ _ (runPoll_all_not_yield env 90 0)]
    rw [List.takeWhile_cons]
    simp [isYieldEv_create, isYieldEv_yield, htr, List.any_append, isSeedEv_seed]
  · rw [htrace]
    simp

/-- Witness for C8 at a run that becomes ready on the first attempt. -/
theorem seeding_between_first_ready_poll_and_yield_witness :
    (((runSession envUploadFail).trace.takeWhile (fun e => ! isReadyPollEv e)).all
        (fun e => ! isSeedEv e)) = true ∧
    (((runSession envUploadFail).trace.takeWhile (fun e => ! isYieldEv e)).any isSeedEv) = true ∧
    Event.yieldEv ∈ (runSession envUploadFail).trace :=
  seeding_between_first_ready_poll_and_yield envUploadFail (by unfold ReachedReady; decide)

/-- C9: every session that reaches Ready yields a backend whose stored
event loop is exactly the loop running `create_daytona_sandbox` (captured
at creation time), and `execute` schedules its remote call through
`run_coroutine_threadsafe` onto that very loop — never by creating a
fresh event loop per call. -/
theorem execute_schedules_on_creation_loop (env : Env) (h : ReachedReady env) :
    ∃ b : DaytonaBackend, (runSession env).backend = some b ∧
      b.loop = env.runningLoop ∧
      DaytonaBackend.execute_bridge b
        = AsyncBridge.run_coroutine_threadsafe env.runningLoop ∧
      DaytonaBackend.execute_bridge b ≠ AsyncBridge.new_event_loop_per_call := by
  obtain ⟨i, hi, htrace, houtcome, hbackend⟩ := runSession_ready_shape env h
  exact ⟨{ sandbox_id := env.sandboxId, loop := env.runningLoop }, hbackend, rfl, rfl,
    fun hcon => AsyncBridge.noConfusion hcon⟩

/-- Witness for C9 at a concrete ready run with loop 7. -/
theorem execute_schedules_on_creation_loop_witness :
    ∃ b : DaytonaBackend, (runSession envReady).backend = some b ∧
      b.loop = envReady.runningLoop ∧
      DaytonaBackend.execute_bridge b
        = AsyncBridge.run_coroutine_threadsafe envReady.runningLoop ∧
      DaytonaBackend.execute_bridge b ≠ AsyncBridge.new_event_loop_per_call :=
  execute_schedules_on_creation_loop envReady (by unfold ReachedReady; decide)

end Sandbox
